import Mathlib

/-!
Verification of the abstract-list ("lazy sequence") representation layer of
`generic/tclAbstractList.c`.

Shallow embedding conventions:
* `ALRep α Elem P` mirrors the C `AbstractList` struct: `version`, `repSize`,
  `typeName`, the element-cache pointer `elements`, the six function-pointer
  slots (`newObjProc`, `dupRepProc`, `lengthProc`, `indexProc`, `sliceProc`,
  `reverseProc`) and the inline payload `abstractValue` (header and payload
  live in one allocation; the inline field reflects that).
* Function pointers are values of an abstract pointer type `P`; the machine's
  act of calling through such a pointer is modelled by explicit interpreters
  (`cL : P → α → Int` for length procs, `cI : P → α → Int → Elem` for index
  procs, `cD` for duplicate-payload hooks).  A subtype's length and index
  procedures read only the payload, so they are applied to `abstractValue`.
* Element values (`Tcl_Obj *` results of an index proc) are an abstract type
  `Elem`; the external collaborator `Tcl_GetStringFromObj` is an explicit
  parameter `estr : Elem → String`.  String bytes are `List Char`.
* The element-cache arrays allocated by `ckalloc` live in an explicit
  allocation table `Mem`: pointers are naturals, `Mem.lookup` reads an
  allocation, `Mem.free` models `ckfree`.  In the model allocation never
  fails, so the `ckalloc == NULL` branch of the C code is dead here.
* `Tcl_Panic` (process abort) is modelled by a `crashed` outcome carrying the
  diagnostic message; calling through a NULL function pointer, which crashes
  the process in C, is likewise modelled as `crashed`.
* C `out`-parameters (`objcPtr`, `objvPtr`) are modelled as the payload of the
  success constructor: an error return carries no payload, which encodes that
  the out-parameters are left unwritten.
* C `int`/`Tcl_WideInt` values are modelled as `Int`; the claims under test do
  not depend on fixed-width narrowing.
-/

set_option autoImplicit false

/-- TCL_OK return code. -/
def TCL_OK : Int := 0

/-- TCL_ERROR return code. -/
def TCL_ERROR : Int := 1

/-- Modelled from the spec: the fixed binary-compatibility marker
`TCL_ABSTRACTLIST_VERSION_1` declared in the (absent) `tclAbstractList.h`. -/
def TCL_ABSTRACTLIST_VERSION_1 : Nat := 1

/-- The C `AbstractList` struct (fields as read off their uses in
`tclAbstractList.c`; the header file that declares the struct is not in the
sources, the field list is exactly the set assigned in
`Tcl_NewAbstractListObj`).  `P` is the type of subtype function pointers,
`α` the payload type, `Elem` the element-value type. -/
structure ALRep (α Elem P : Type) where
  version : Nat
  repSize : Nat
  typeName : String
  elements : Option Nat
  newObjProc : Option P
  dupRepProc : Option P
  lengthProc : Option P
  indexProc : Option P
  sliceProc : Option P
  reverseProc : Option P
  abstractValue : α
  deriving Repr

/-- The representation slot of a `Tcl_Obj`: either the abstract-list internal
representation (tag `tclAbstractListType` with `ptr1` pointing at the
`AbstractList` block), some other type's representation, or no representation
at all. -/
inductive ObjRep (α Elem P : Type) where
  | abstractList (rep : ALRep α Elem P)
  | otherType (name : String)
  | noRep
  deriving Repr

/-- A `Tcl_Obj` as far as this layer observes it: representation slot, cached
string bytes (`none` models `bytes == NULL`, i.e. an invalidated string rep),
the recorded string length, and the reference count. -/
structure TclObj (α Elem P : Type) where
  rep : ObjRep α Elem P
  bytes : Option (List Char)
  strLength : Int
  refCount : Nat
  deriving Repr

/-- Model of `TclNewObj`: a fresh object with reference count zero, no internal
representation and an empty string rep. -/
def TclNewObj (α Elem P : Type) : TclObj α Elem P :=
  { rep := ObjRep.noRep, bytes := some [], strLength := 0, refCount := 0 }

/-- Model of `Tcl_InvalidateStringRep`. -/
def Tcl_InvalidateStringRep {α Elem P : Type} (obj : TclObj α Elem P) :
    TclObj α Elem P :=
  { obj with bytes := none }

/-- Modelled from the spec: `AbstractListGetInternalRep` of the (absent)
`tclAbstractList.h` — fetch the abstract-list representation of a value, NULL
when its tag is not the abstract-list tag ("any entry point that receives a
generic Value Handle must first confirm its representation tag is the
lazy-sequence tag"). -/
def AbstractListGetInternalRep {α Elem P : Type} (obj : TclObj α Elem P) :
    Option (ALRep α Elem P) :=
  match obj.rep with
  | ObjRep.abstractList r => some r
  | _ => none

/-- The allocation table for element-cache arrays: an association list from
pointers (naturals) to array contents, plus the next fresh pointer. -/
structure Mem (Elem : Type) where
  caches : List (Nat × List Elem)
  next : Nat
  deriving Repr

/-- Read the array at pointer `p`, `none` if not allocated. -/
def Mem.lookup {Elem : Type} (m : Mem Elem) (p : Nat) : Option (List Elem) :=
  (m.caches.find? (fun e => e.1 == p)).map (fun e => e.2)

/-- Model of `ckfree` of the array at pointer `p`. -/
def Mem.free {Elem : Type} (m : Mem Elem) (p : Nat) : Mem Elem :=
  { m with caches := m.caches.filter (fun e => e.1 != p) }

/-- Model of `ckalloc` of a fresh array holding `xs`. -/
def Mem.alloc {Elem : Type} (m : Mem Elem) (xs : List Elem) : Mem Elem × Nat :=
  ({ caches := (m.next, xs) :: m.caches, next := m.next + 1 }, m.next)

/-- Outcome of `Tcl_AbstractListObjGetElements`: `ok objc objv` is a `TCL_OK`
return with the two out-parameters written (`objv = none` models
`*objvPtr = NULL`); `err` is a `TCL_ERROR` return with the interpreter result
message and error code set and the out-parameters untouched; `crashed` models
a process abort. -/
inductive GEOut where
  | ok (objc : Int) (objv : Option Nat)
  | err (msg : String) (code : List String)
  | crashed (msg : String)
  deriving Repr, DecidableEq

/-- Outcome of `Tcl_AbstractListObjIndex`: an element, or a process abort. -/
inductive IdxOut (Elem : Type) where
  | ok (e : Elem)
  | crashed (msg : String)
  deriving Repr

/-- Generic outcome used for `SetAbstractListFromAny` and
`TclAbstractListObjCopy`: a usable value, a recoverable `TCL_ERROR`, or a
process abort. -/
inductive COut (β : Type) where
  | ok (v : β)
  | err (msg : String)
  | crashed (msg : String)
  deriving Repr

section Model

variable {α Elem P : Type}

/-- The element list produced by materialization: entry `i` is
`indexProc(objPtr, i)`. -/
def materialize (cI : P → α → Int → Elem) (ip : P) (v : α) (n : Nat) :
    List Elem :=
  (List.range n).map (fun i => cI ip v (Int.ofNat i))

/-- Model of `Tcl_NewAbstractListObj` (lines 86-112): one block of
`sizeof(AbstractList) + requiredSize` bytes (`headerSize` stands for
`sizeof(AbstractList)`), every proc slot and the cache slot NULL, the string
rep invalidated, reference count zero.  `payload0` is the (uninitialized in C)
payload content of the fresh block. -/
def Tcl_NewAbstractListObj (headerSize : Nat) (typeName : String)
    (requiredSize : Nat) (payload0 : α) : TclObj α Elem P :=
  let rep : ALRep α Elem P :=
    { version := TCL_ABSTRACTLIST_VERSION_1
      repSize := headerSize + requiredSize
      typeName := typeName
      elements := none
      newObjProc := none
      dupRepProc := none
      lengthProc := none
      indexProc := none
      sliceProc := none
      reverseProc := none
      abstractValue := payload0 }
  Tcl_InvalidateStringRep
    { TclNewObj α Elem P with rep := ObjRep.abstractList rep }

/-- Model of `Tcl_AbstractListObjIndex` (lines 133-146): panic unless the value's type
is `tclAbstractListType`, otherwise call straight through the subtype's index
proc (a NULL `indexProc` crashes in C; modelled as `crashed`). -/
def Tcl_AbstractListObjIndex (cI : P → α → Int → Elem)
    (obj : TclObj α Elem P) (index : Int) : IdxOut Elem :=
  match obj.rep with
  | ObjRep.abstractList r =>
    match r.indexProc with
    | some ip => IdxOut.ok (cI ip r.abstractValue index)
    | none => IdxOut.crashed "NULL indexProc dereference"
  | _ =>
    IdxOut.crashed "Tcl_AbstractListObjIndex called without and AbstractList Obj."

/-- Model of `Tcl_AbstractListObjGetElements` (lines 480-532).  Returns the updated
object, the updated allocation table, and the outcome. -/
def Tcl_AbstractListObjGetElements (cL : P → α → Int)
    (cI : P → α → Int → Elem) (obj : TclObj α Elem P) (mem : Mem Elem) :
    TclObj α Elem P × Mem Elem × GEOut :=
  match obj.rep with
  | ObjRep.abstractList r =>
    match r.lengthProc with
    | none => (obj, mem, GEOut.crashed "NULL lengthProc dereference")
    | some lp =>
      let objc : Int := cL lp r.abstractValue
      if 0 < objc then
        match r.elements with
        | some p => (obj, mem, GEOut.ok objc (some p))
        | none =>
          match r.indexProc with
          | none => (obj, mem, GEOut.crashed "NULL indexProc dereference")
          | some ip =>
            let objv := materialize cI ip r.abstractValue objc.toNat
            let am := mem.alloc objv
            let r' := { r with elements := some am.2 }
            ({ obj with rep := ObjRep.abstractList r' }, am.1,
              GEOut.ok objc (some am.2))
      else
        (obj, mem, GEOut.ok objc none)
  | _ =>
    (obj, mem,
      GEOut.err "value is not an abstract list" ["TCL", "VALUE", "UNKNOWN"])

/-- Model of `SetAbstractListFromAny` (lines 333-342): unconditional `Tcl_Panic`. -/
def SetAbstractListFromAny (interp : Option Unit) (obj : TclObj α Elem P) :
    COut Unit :=
  match interp, obj with
  | _, _ => COut.crashed "SetAbstractListFromAny: should never be called"

/-- Slot identifiers accepted by `Tcl_AbstractListSetProc`: the six named
values of the `Tcl_AbstractListProcType` enum of the (absent) header, plus
`unrecognized n` standing for any other value a C enum variable can carry
(such values reach the switch's `default` arm). -/
inductive Tcl_AbstractListProcType where
  | TCL_ABSL_NEW
  | TCL_ABSL_DUPREP
  | TCL_ABSL_LENGTH
  | TCL_ABSL_INDEX
  | TCL_ABSL_SLICE
  | TCL_ABSL_REVERSE
  | unrecognized (n : Int)
  deriving Repr, DecidableEq

/-- Whether a slot identifier is one of the six `case` arms of the switch. -/
def Tcl_AbstractListProcType.recognized : Tcl_AbstractListProcType → Bool
  | Tcl_AbstractListProcType.unrecognized _ => false
  | _ => true

/-- Read the operation-table slot named by a recognized identifier. -/
def ALRep.readSlot (r : ALRep α Elem P) :
    Tcl_AbstractListProcType → Option P
  | Tcl_AbstractListProcType.TCL_ABSL_NEW => r.newObjProc
  | Tcl_AbstractListProcType.TCL_ABSL_DUPREP => r.dupRepProc
  | Tcl_AbstractListProcType.TCL_ABSL_LENGTH => r.lengthProc
  | Tcl_AbstractListProcType.TCL_ABSL_INDEX => r.indexProc
  | Tcl_AbstractListProcType.TCL_ABSL_SLICE => r.sliceProc
  | Tcl_AbstractListProcType.TCL_ABSL_REVERSE => r.reverseProc
  | Tcl_AbstractListProcType.unrecognized _ => none

/-- The six operation-table slots of a header, in declaration order, as
occupancy flags. -/
def ALRep.opSlots (r : ALRep α Elem P) : List Bool :=
  [r.newObjProc.isSome, r.dupRepProc.isSome, r.lengthProc.isSome,
    r.indexProc.isSome, r.sliceProc.isSome, r.reverseProc.isSome]

/-- Model of `Tcl_AbstractListSetProc` (lines 534-569): `TCL_ERROR` when the
value has no abstract-list representation or the identifier falls to the
`default` arm, otherwise store the pointer into the requested slot and
return `TCL_OK`.  Returns the updated object and the result code. -/
def Tcl_AbstractListSetProc (obj : TclObj α Elem P)
    (ptype : Tcl_AbstractListProcType) (proc : P) : TclObj α Elem P × Int :=
  match AbstractListGetInternalRep obj with
  | none => (obj, TCL_ERROR)
  | some r =>
    match ptype with
    | Tcl_AbstractListProcType.TCL_ABSL_NEW =>
      ({ obj with rep := ObjRep.abstractList { r with newObjProc := some proc } },
        TCL_OK)
    | Tcl_AbstractListProcType.TCL_ABSL_DUPREP =>
      ({ obj with rep := ObjRep.abstractList { r with dupRepProc := some proc } },
        TCL_OK)
    | Tcl_AbstractListProcType.TCL_ABSL_LENGTH =>
      ({ obj with rep := ObjRep.abstractList { r with lengthProc := some proc } },
        TCL_OK)
    | Tcl_AbstractListProcType.TCL_ABSL_INDEX =>
      ({ obj with rep := ObjRep.abstractList { r with indexProc := some proc } },
        TCL_OK)
    | Tcl_AbstractListProcType.TCL_ABSL_SLICE =>
      ({ obj with rep := ObjRep.abstractList { r with sliceProc := some proc } },
        TCL_OK)
    | Tcl_AbstractListProcType.TCL_ABSL_REVERSE =>
      ({ obj with rep := ObjRep.abstractList { r with reverseProc := some proc } },
        TCL_OK)
    | Tcl_AbstractListProcType.unrecognized _ => (obj, TCL_ERROR)

/-- Model of `DupAbstractListInternalRep` (lines 202-226).  The C body performs a
byte-for-byte struct copy `*copyAbstractListRepPtr = *srcAbstractListRepPtr`
— including the `elements` cache pointer — then re-assigns `typeName`, tags
the copy as an abstract list, and finally runs the subtype's
duplicate-payload hook if one is registered.  `cD` interprets a
`dupRepProc` pointer as a transformation of the copy's header given the
source's header.  When the source is not an abstract list the C macro
`Tcl_AbstractListRepPtr` reads an unrelated pointer (undefined behavior,
callers guarantee the tag); that branch leaves the copy unchanged here. -/
def DupAbstractListInternalRep
    (cD : P → ALRep α Elem P → ALRep α Elem P → ALRep α Elem P)
    (srcPtr copyPtr : TclObj α Elem P) : TclObj α Elem P :=
  match srcPtr.rep with
  | ObjRep.abstractList r =>
    let copyRep : ALRep α Elem P := r
    let copyRep := { copyRep with typeName := r.typeName }
    let copyPtr' := { copyPtr with rep := ObjRep.abstractList copyRep }
    match r.dupRepProc with
    | some d =>
      { copyPtr' with rep := ObjRep.abstractList (cD d r copyRep) }
    | none => copyPtr'
  | _ => copyPtr

/-- Model of `FreeAbstractListInternalRep` (lines 166-183): when a cache is present,
decrement each cached element's reference count (element reference counts are
outside this model) and `ckfree` the cache array; then free the header block
and NULL both internal-rep pointers. -/
def FreeAbstractListInternalRep (obj : TclObj α Elem P) (mem : Mem Elem) :
    TclObj α Elem P × Mem Elem :=
  match obj.rep with
  | ObjRep.abstractList r =>
    let mem' :=
      match r.elements with
      | some p => mem.free p
      | none => mem
    ({ obj with rep := ObjRep.noRep }, mem')
  | _ => (obj, mem)

/-- Model of `TclAbstractListObjCopy` (lines 367-388): on a non-abstract-list value it
calls `SetAbstractListFromAny`, which panics; otherwise it builds a fresh
invalidated object and duplicates the internal representation into it. -/
def TclAbstractListObjCopy
    (cD : P → ALRep α Elem P → ALRep α Elem P → ALRep α Elem P)
    (interp : Option Unit) (obj : TclObj α Elem P) :
    COut (TclObj α Elem P) :=
  match AbstractListGetInternalRep obj with
  | none =>
    match SetAbstractListFromAny interp obj with
    | COut.crashed m => COut.crashed m
    | _ => COut.err "unreachable"
  | some _ =>
    COut.ok
      (DupAbstractListInternalRep cD obj
        (Tcl_InvalidateStringRep (TclNewObj α Elem P)))

/-- Pass 2 of `UpdateStringOfAbstractList` (lines 299-306): the buffer after
the render loop, which writes each element's string bytes immediately
followed by one space separator. -/
def renderPass (strs : List String) : List Char :=
  strs.foldr (fun s acc => s.data ++ (' ' :: acc)) []

/-- Pass 1 of `UpdateStringOfAbstractList` (lines 287-292): the measured byte
count, `slen + 1` per element. -/
def measurePass (strs : List String) : Nat :=
  (strs.map (fun s => s.length + 1)).sum

/-- The element strings fetched during a string-projection pass: element `i`
is produced by the index proc and rendered by `Tcl_GetStringFromObj`
(`estr`); both passes fetch them identically. -/
def elemStrs (cI : P → α → Int → Elem) (estr : Elem → String) (ip : P)
    (v : α) (n : Nat) : List String :=
  (List.range n).map (fun i => estr (cI ip v (Int.ofNat i)))

/-- Model of `UpdateStringOfAbstractList` (lines 269-309).  With `llen <= 0` the
string rep is initialized empty.  Otherwise pass 1 measures
`length = Σ (slen_i + 1)`, pass 2 fills a `length`-byte buffer with each
element's bytes plus a trailing space, the final separator is overwritten
with the terminator (`bytes[length-1] = NUL`), and the recorded length is
`length - 1`; the stored C string is therefore the first `length - 1` bytes
of the buffer.  A NULL `lengthProc`/`indexProc` crashes in C: modelled as
`none`.  `estr` is the collaborator `Tcl_GetStringFromObj`. -/
def UpdateStringOfAbstractList (cL : P → α → Int)
    (cI : P → α → Int → Elem) (estr : Elem → String)
    (obj : TclObj α Elem P) : Option (TclObj α Elem P) :=
  match obj.rep with
  | ObjRep.abstractList r =>
    match r.lengthProc, r.indexProc with
    | some lp, some ip =>
      let llen : Int := cL lp r.abstractValue
      if llen ≤ 0 then
        some { obj with bytes := some [], strLength := 0 }
      else
        let strs := elemStrs cI estr ip r.abstractValue llen.toNat
        let total := measurePass strs
        some { obj with
          bytes := some ((renderPass strs).take (total - 1))
          strLength := (total : Int) - 1 }
    | _, _ => none
  | _ => none

/-- Modelled from the spec, comparison definition for the render pass: the
canonical textual form is the element strings "joined by an unescaped
separator" — each element's bytes followed by a single space, with no
separator after the last element. -/
def sepJoinSpec : List String → List Char
  | [] => []
  | [s] => s.data
  | s :: rest => s.data ++ (' ' :: sepJoinSpec rest)

/-- The cache-pointer slot of a value's abstract-list header, if any. -/
def TclObj.cacheSlot (obj : TclObj α Elem P) : Option Nat :=
  match obj.rep with
  | ObjRep.abstractList r => r.elements
  | _ => none

end Model

/-! Concrete instances used by witnesses and counterexamples.  They realize
the spec's concrete scenario (`start=0, step=2, count=5`): payload `Unit`,
elements `Int`, function pointers `Unit` interpreted by `cLen5` (length 5)
and `cIdx2` (element `2*i`). -/

/-- Interpreter of length procs returning 5. -/
def cLen5 : Unit → Unit → Int := fun _ _ => 5

/-- Interpreter of length procs returning -1. -/
def cLenNeg : Unit → Unit → Int := fun _ _ => -1

/-- Interpreter of length procs returning 1. -/
def cLen1 : Unit → Unit → Int := fun _ _ => 1

/-- Interpreter of index procs returning `2*i`. -/
def cIdx2 : Unit → Unit → Int → Int := fun _ _ i => 2 * i

/-- An abstract-list value with length and index procs installed and the
given cache slot. -/
def alObj (cache : Option Nat) : TclObj Unit Int Unit :=
  { rep := ObjRep.abstractList
      { version := TCL_ABSTRACTLIST_VERSION_1
        repSize := 40
        typeName := "arithseries"
        elements := cache
        newObjProc := none
        dupRepProc := none
        lengthProc := some ()
        indexProc := some ()
        sliceProc := none
        reverseProc := none
        abstractValue := () }
    bytes := none
    strLength := 0
    refCount := 1 }

/-- A value of some other representation type. -/
def intObj : TclObj Unit Int Unit :=
  { rep := ObjRep.otherType "int"
    bytes := some ['4', '2']
    strLength := 2
    refCount := 1 }

/-- The empty allocation table. -/
def memEmpty : Mem Int := { caches := [], next := 0 }

/-- An allocation table holding the materialized cache `[0,2,4,6,8]` of the
concrete scenario at pointer 0. -/
def memWithCache : Mem Int := { caches := [(0, [0, 2, 4, 6, 8])], next := 1 }

/-- A duplicate-payload hook interpreter that applies no fix-up (the concrete
scenario registers no `dupRepProc`, so it is never consulted). -/
def cDupId : Unit → ALRep Unit Int Unit → ALRep Unit Int Unit →
    ALRep Unit Int Unit := fun _ _ c => c

/-- The duplicate produced from `alObj (some 0)` by
`DupAbstractListInternalRep` into a fresh invalidated object, as
`TclAbstractListObjCopy` builds it. -/
def dupOfCached : TclObj Unit Int Unit :=
  DupAbstractListInternalRep cDupId (alObj (some 0))
    (Tcl_InvalidateStringRep (TclNewObj Unit Int Unit))

/-- String-projection scenario object: elements are `String`, both procs
installed; the interpreters passed at each use decide length and contents. -/
def strListObj : TclObj Unit String Unit :=
  { rep := ObjRep.abstractList
      { version := TCL_ABSTRACTLIST_VERSION_1
        repSize := 40
        typeName := "strlist"
        elements := none
        newObjProc := none
        dupRepProc := none
        lengthProc := some ()
        indexProc := some ()
        sliceProc := none
        reverseProc := none
        abstractValue := () }
    bytes := none
    strLength := 0
    refCount := 1 }

/-- Index-proc interpreter producing the empty string for every index. -/
def cIdxEmpty : Unit → Unit → Int → String := fun _ _ _ => ""

/-- Index-proc interpreter for the concrete scenario's strings. -/
def cIdx2s : Unit → Unit → Int → String := fun _ _ i => toString (2 * i)

/-- A freshly created header for the creation claims. -/
def newObj8 : TclObj Unit Int Unit :=
  Tcl_NewAbstractListObj 40 "demo" 8 ()

/-! Helper lemmas about the two rendering passes and the allocation table. -/

theorem renderPass_length (strs : List String) :
    (renderPass strs).length = measurePass strs := by
  induction strs with
  | nil => rfl
  | cons s t ih =>
    simp only [renderPass, measurePass, List.foldr, List.map, List.sum_cons,
      List.length_append, List.length_cons] at *
    have hs := String.length_data s
    omega

theorem measurePass_pos (strs : List String) (h : strs ≠ []) :
    1 ≤ measurePass strs := by
  cases strs with
  | nil => cases h rfl
  | cons s t =>
    simp only [measurePass, List.map, List.sum_cons]
    omega

theorem renderPass_take (strs : List String) (h : strs ≠ []) :
    (renderPass strs).take (measurePass strs - 1) = sepJoinSpec strs := by
  induction strs with
  | nil => cases h rfl
  | cons s t ih =>
    cases t with
    | nil =>
      show (s.data ++ [' ']).take (measurePass [s] - 1) = s.data
      have hm : measurePass [s] - 1 = s.data.length := by
        have hs := String.length_data s
        simp only [measurePass, List.map, List.sum_cons, List.sum_nil]
        omega
      rw [hm, List.take_append_eq_append_take, List.take_length]
      simp
    | cons s2 t2 =>
      have hpos : 1 ≤ measurePass (s2 :: t2) :=
        measurePass_pos _ (by simp)
      have hmeas : measurePass (s :: s2 :: t2) =
          s.length + 1 + measurePass (s2 :: t2) := by
        simp [measurePass]
      have hlen : s.length = s.data.length := rfl
      show (s.data ++ (' ' :: renderPass (s2 :: t2))).take
          (measurePass (s :: s2 :: t2) - 1) =
        s.data ++ (' ' :: sepJoinSpec (s2 :: t2))
      rw [List.take_append_eq_append_take]
      have h1 : measurePass (s :: s2 :: t2) - 1 - s.data.length =
          1 + (measurePass (s2 :: t2) - 1) := by omega
      have h2 : s.data.length ≤ measurePass (s :: s2 :: t2) - 1 := by omega
      rw [List.take_of_length_le (by omega), h1]
      have : (' ' :: renderPass (s2 :: t2)).take
          (1 + (measurePass (s2 :: t2) - 1)) =
          ' ' :: (renderPass (s2 :: t2)).take (measurePass (s2 :: t2) - 1) := by
        rw [Nat.add_comm]
        simp [List.take_succ_cons]
      rw [this, ih (by simp)]

theorem sepJoinSpec_length (strs : List String) (h : strs ≠ []) :
    (sepJoinSpec strs).length = measurePass strs - 1 := by
  rw [← renderPass_take strs h, List.length_take, renderPass_length]
  omega

theorem measurePass_eq_one (strs : List String) :
    measurePass strs = 1 ↔ ∃ s, strs = [s] ∧ s.length = 0 := by
  cases strs with
  | nil => simp [measurePass]
  | cons s t =>
    cases t with
    | nil => simp [measurePass]
    | cons s2 t2 =>
      have : 2 ≤ measurePass (s :: s2 :: t2) := by
        simp only [measurePass, List.map, List.sum_cons]
        omega
      constructor
      · intro h1; omega
      · rintro ⟨s', hs', _⟩; cases hs'

theorem mem_lookup_alloc {Elem : Type} (m : Mem Elem) (xs : List Elem) :
    (m.alloc xs).1.lookup (m.alloc xs).2 = some xs := by
  simp [Mem.alloc, Mem.lookup, List.find?]

/-- Claim C7: the text-to-representation conversion never succeeds — every
invocation of `SetAbstractListFromAny` aborts the process with its fixed
diagnostic (never a usable value, never a recoverable error), and that
diagnostic is distinct from the messages of every other error path of the
file (the single-element accessor's panic and the bulk accessor's wrong-type
error). -/
theorem setAbstractListFromAny_always_aborts (α Elem P : Type)
    (interp : Option Unit) (obj : TclObj α Elem P) :
    SetAbstractListFromAny interp obj =
        COut.crashed "SetAbstractListFromAny: should never be called" ∧
      (∀ v, SetAbstractListFromAny interp obj ≠ COut.ok v) ∧
      (∀ m, SetAbstractListFromAny interp obj ≠ COut.err m) ∧
      "SetAbstractListFromAny: should never be called" ≠
        "Tcl_AbstractListObjIndex called without and AbstractList Obj." ∧
      "SetAbstractListFromAny: should never be called" ≠
        "value is not an abstract list" := by
  refine ⟨rfl, ?_, ?_, by decide, by decide⟩
  · intro v h
    exact COut.noConfusion h
  · intro m h
    exact COut.noConfusion h

/-- Claim C2: on a value whose representation tag is not the abstract-list
tag, `Tcl_AbstractListObjIndex` aborts the process with its panic message,
while `Tcl_AbstractListObjGetElements` does not abort: it returns a
`TCL_ERROR` with the structured wrong-type diagnostic, and since the error
outcome carries no out-parameter payload, `objcPtr` and `objvPtr` stay
unwritten (object and allocation table are returned unchanged). -/
theorem accessors_wrong_type (α Elem P : Type) (cL : P → α → Int)
    (cI : P → α → Int → Elem) (obj : TclObj α Elem P) (mem : Mem Elem)
    (idx : Int) (h : ∀ r, obj.rep ≠ ObjRep.abstractList r) :
    Tcl_AbstractListObjIndex cI obj idx =
        IdxOut.crashed
          "Tcl_AbstractListObjIndex called without and AbstractList Obj." ∧
      Tcl_AbstractListObjGetElements cL cI obj mem =
        (obj, mem,
          GEOut.err "value is not an abstract list"
            ["TCL", "VALUE", "UNKNOWN"]) := by
  cases hobj : obj.rep with
  | abstractList r => exact absurd hobj (h r)
  | otherType name =>
    exact ⟨by simp [Tcl_AbstractListObjIndex, hobj],
      by simp [Tcl_AbstractListObjGetElements, hobj]⟩
  | noRep =>
    exact ⟨by simp [Tcl_AbstractListObjIndex, hobj],
      by simp [Tcl_AbstractListObjGetElements, hobj]⟩

/-- Witness for C2 at the concrete non-abstract-list value `intObj`. -/
theorem accessors_wrong_type_witness :
    Tcl_AbstractListObjIndex cIdx2 intObj 3 =
        IdxOut.crashed
          "Tcl_AbstractListObjIndex called without and AbstractList Obj." ∧
      Tcl_AbstractListObjGetElements cLen5 cIdx2 intObj memEmpty =
        (intObj, memEmpty,
          GEOut.err "value is not an abstract list"
            ["TCL", "VALUE", "UNKNOWN"]) :=
  accessors_wrong_type Unit Int Unit cLen5 cIdx2 intObj memEmpty 3
    (by intro r h; simp [intObj] at h)

/-- Claim C10: when the subtype length proc reports `n ≤ 0` (including
negative `n`), the bulk accessor returns `TCL_OK` with `*objvPtr = NULL` and
`*objcPtr = n`, allocating nothing and installing no cache (the object and
the allocation table come back unchanged). -/
theorem getElements_nonpositive (α Elem P : Type) (cL : P → α → Int)
    (cI : P → α → Int → Elem) (obj : TclObj α Elem P) (mem : Mem Elem)
    (r : ALRep α Elem P) (lp : P)
    (hrep : obj.rep = ObjRep.abstractList r)
    (hlp : r.lengthProc = some lp)
    (hn : cL lp r.abstractValue ≤ 0) :
    Tcl_AbstractListObjGetElements cL cI obj mem =
      (obj, mem, GEOut.ok (cL lp r.abstractValue) none) := by
  have hnot : ¬ (0 < cL lp r.abstractValue) := by omega
  simp [Tcl_AbstractListObjGetElements, hrep, hlp, hnot]

/-- Witness for C10 with a length proc returning `-1`. -/
theorem getElements_nonpositive_witness :
    Tcl_AbstractListObjGetElements cLenNeg cIdx2 (alObj none) memEmpty =
      (alObj none, memEmpty, GEOut.ok (-1) none) :=
  getElements_nonpositive Unit Int Unit cLenNeg cIdx2 (alObj none) memEmpty
    _ () rfl rfl (by decide)

/-- Claim C8 counterexample: the header returned by `Tcl_NewAbstractListObj`
carries a six-entry operation table (`newObjProc`, `dupRepProc`,
`lengthProc`, `indexProc`, `sliceProc`, `reverseProc`), every entry empty —
so the table does not consist of five slots as the claim states. -/
theorem newObj_six_slots_counterexample :
    (AbstractListGetInternalRep newObj8).map ALRep.opSlots =
        some [false, false, false, false, false, false] ∧
      ((AbstractListGetInternalRep newObj8).map ALRep.opSlots).map
          List.length = some 6 ∧
      ((AbstractListGetInternalRep newObj8).map ALRep.opSlots).map
          List.length ≠ some 5 :=
  ⟨rfl, rfl, by decide⟩

/-- Claim C8 (amended): for every requested payload size `S`, creation
allocates header and payload as one block, records `allocatedSize
= headerSize + S`, sets all six operation-table slots and the element-cache
slot to empty/null, invalidates the string rep, and returns a handle whose
reference count is zero. -/
theorem newAbstractListObj_spec (α Elem P : Type) (headerSize : Nat)
    (typeName : String) (S : Nat) (payload0 : α) :
    ∃ r : ALRep α Elem P,
      AbstractListGetInternalRep
          (Tcl_NewAbstractListObj headerSize typeName S payload0 :
            TclObj α Elem P) = some r ∧
        r.repSize = headerSize + S ∧
        r.version = TCL_ABSTRACTLIST_VERSION_1 ∧
        r.typeName = typeName ∧
        r.elements = none ∧
        r.opSlots = [false, false, false, false, false, false] ∧
        r.abstractValue = payload0 ∧
        (Tcl_NewAbstractListObj headerSize typeName S payload0 :
          TclObj α Elem P).refCount = 0 ∧
        (Tcl_NewAbstractListObj headerSize typeName S payload0 :
          TclObj α Elem P).bytes = none :=
  ⟨_, rfl, rfl, rfl, rfl, rfl, rfl, rfl, rfl, rfl⟩

/-- Claim C1 (code defect, evaluated at the failing input): duplicating the
cached abstract list `alObj (some 0)` — both through
`TclAbstractListObjCopy` and its worker `DupAbstractListInternalRep` —
copies the header struct verbatim, so the copy's cache slot is `some 0`,
aliasing the source's cache, instead of starting absent; freeing the copy
then deallocates the shared array at pointer 0 while the source still holds
that pointer, so the source's cache does not stay intact. -/
theorem dup_aliases_cache :
    TclAbstractListObjCopy cDupId none (alObj (some 0)) =
        COut.ok dupOfCached ∧
      (alObj (some 0)).cacheSlot = some 0 ∧
      dupOfCached.cacheSlot = some 0 ∧
      memWithCache.lookup 0 = some [0, 2, 4, 6, 8] ∧
      ((FreeAbstractListInternalRep dupOfCached memWithCache).2).lookup 0 =
        none :=
  ⟨rfl, rfl, rfl, rfl, by decide⟩

theorem materialize_get {α Elem P : Type} (cI : P → α → Int → Elem) (ip : P)
    (v : α) (n i : Nat) (h : i < n) :
    (materialize cI ip v n).get? i = some (cI ip v (Int.ofNat i)) := by
  rw [List.get?_eq_getElem?]
  simp [materialize, List.getElem?_map, List.getElem?_range, h]

/-- Claim C3: on an abstract-list value of logical length `N ≥ 0` (whose
cache, if present, is the one its own materialization installed — invariant
I4), the bulk accessor succeeds with count exactly `N`, and entry `i` of the
returned array equals the subtype index proc's value at `i` for every
`i < N`. -/
theorem getElements_count_and_entries (α Elem P : Type) (cL : P → α → Int)
    (cI : P → α → Int → Elem) (obj : TclObj α Elem P) (mem : Mem Elem)
    (r : ALRep α Elem P) (lp ip : P)
    (hrep : obj.rep = ObjRep.abstractList r)
    (hlp : r.lengthProc = some lp)
    (hip : r.indexProc = some ip)
    (hn : 0 ≤ cL lp r.abstractValue)
    (hcache : r.elements = none ∨ ∃ p, r.elements = some p ∧
      mem.lookup p = some
        (materialize cI ip r.abstractValue (cL lp r.abstractValue).toNat)) :
    ∃ obj' mem' objv,
      Tcl_AbstractListObjGetElements cL cI obj mem =
          (obj', mem', GEOut.ok (cL lp r.abstractValue) objv) ∧
        (cL lp r.abstractValue = 0 → objv = none) ∧
        (0 < cL lp r.abstractValue → ∃ p, objv = some p ∧
          mem'.lookup p = some
            (materialize cI ip r.abstractValue
              (cL lp r.abstractValue).toNat)) ∧
        (∀ p l, objv = some p → mem'.lookup p = some l →
          ∀ i : Nat, i < (cL lp r.abstractValue).toNat →
            l.get? i = some (cI ip r.abstractValue (Int.ofNat i))) := by
  by_cases hpos : 0 < cL lp r.abstractValue
  · rcases hcache with hc | ⟨p, hp, hlook⟩
    · have heq : Tcl_AbstractListObjGetElements cL cI obj mem =
          ({ obj with
              rep := ObjRep.abstractList ({ r with elements := some mem.next }) },
            (mem.alloc (materialize cI ip r.abstractValue
              (cL lp r.abstractValue).toNat)).1,
            GEOut.ok (cL lp r.abstractValue) (some mem.next)) := by
        simp [Tcl_AbstractListObjGetElements, hrep, hlp, hip, hpos, hc,
          Mem.alloc]
      refine ⟨_, _, some mem.next, heq, ?_, ?_, ?_⟩
      · intro h0; omega
      · intro _
        exact ⟨mem.next, rfl, mem_lookup_alloc _ _⟩
      · intro p' l hp' hl i hi
        have hall : (mem.alloc (materialize cI ip r.abstractValue
            (cL lp r.abstractValue).toNat)).1.lookup mem.next =
            some (materialize cI ip r.abstractValue
              (cL lp r.abstractValue).toNat) :=
          mem_lookup_alloc _ _
        rw [Option.some.injEq] at hp'
        rw [← hp'] at hl
        rw [hall] at hl
        rw [Option.some.injEq] at hl
        rw [← hl]
        exact materialize_get cI ip r.abstractValue _ i hi
    · refine ⟨obj, mem, some p, ?_, ?_, ?_, ?_⟩
      · simp [Tcl_AbstractListObjGetElements, hrep, hlp, hpos, hp]
      · intro h0; omega
      · intro _
        exact ⟨p, rfl, hlook⟩
      · intro p' l hp' hl i hi
        rw [Option.some.injEq] at hp'
        rw [← hp'] at hl
        rw [hlook] at hl
        rw [Option.some.injEq] at hl
        rw [← hl]
        exact materialize_get cI ip r.abstractValue _ i hi
  · have h0 : cL lp r.abstractValue = 0 := by omega
    refine ⟨obj, mem, none, ?_, fun _ => rfl, ?_, ?_⟩
    · simp [Tcl_AbstractListObjGetElements, hrep, hlp, hpos]
    · intro h; omega
    · intro p l hp
      exact absurd hp (by simp)

/-- Witness for C3 at the concrete scenario (`length=5`, elements `2*i`,
no cache yet). -/
theorem getElements_count_and_entries_witness :
    ∃ (obj' : TclObj Unit Int Unit) (mem' : Mem Int) (objv : Option Nat),
      Tcl_AbstractListObjGetElements cLen5 cIdx2 (alObj none) memEmpty =
          (obj', mem', GEOut.ok (cLen5 () ()) objv) ∧
        (cLen5 () () = 0 → objv = none) ∧
        (0 < cLen5 () () → ∃ p, objv = some p ∧
          mem'.lookup p = some (materialize cIdx2 () () (cLen5 () ()).toNat)) ∧
        (∀ p l, objv = some p → mem'.lookup p = some l →
          ∀ i : Nat, i < (cLen5 () ()).toNat →
            l.get? i = some (cIdx2 () () (Int.ofNat i))) :=
  getElements_count_and_entries Unit Int Unit cLen5 cIdx2 (alObj none)
    memEmpty _ () () rfl rfl rfl (by decide) (Or.inl rfl)

/-- Claim C6: bulk materialization populates a header's cache at most once.
First, when a cache is already present the bulk accessor returns it as-is —
for any interpretation of the index proc whatsoever (so the index operation
is not consulted) — and mutates neither the object nor the allocation table.
Second, after any successful call, an immediately repeated call returns the
same count, the same array pointer, and leaves the state unchanged. -/
theorem getElements_idempotent (α Elem P : Type) (cL : P → α → Int)
    (cI : P → α → Int → Elem) (obj : TclObj α Elem P) (mem : Mem Elem) :
    (∀ r lp p, obj.rep = ObjRep.abstractList r → r.lengthProc = some lp →
      0 < cL lp r.abstractValue → r.elements = some p →
      ∀ cI' : P → α → Int → Elem,
        Tcl_AbstractListObjGetElements cL cI' obj mem =
          (obj, mem, GEOut.ok (cL lp r.abstractValue) (some p))) ∧
    (∀ obj₁ mem₁ objc objv,
      Tcl_AbstractListObjGetElements cL cI obj mem =
          (obj₁, mem₁, GEOut.ok objc objv) →
      Tcl_AbstractListObjGetElements cL cI obj₁ mem₁ =
        (obj₁, mem₁, GEOut.ok objc objv)) := by
  constructor
  · intro r lp p hrep hlp hpos hp cI'
    simp [Tcl_AbstractListObjGetElements, hrep, hlp, hpos, hp]
  · intro obj₁ mem₁ objc objv h
    cases hobj : obj.rep with
    | otherType name => simp [Tcl_AbstractListObjGetElements, hobj] at h
    | noRep => simp [Tcl_AbstractListObjGetElements, hobj] at h
    | abstractList r =>
      cases hlp : r.lengthProc with
      | none => simp [Tcl_AbstractListObjGetElements, hobj, hlp] at h
      | some lp =>
        by_cases hpos : 0 < cL lp r.abstractValue
        · cases hel : r.elements with
          | some p =>
            simp [Tcl_AbstractListObjGetElements, hobj, hlp, hpos, hel] at h
            obtain ⟨h1, h2, h3, h4⟩ := h
            subst h1
            subst h2
            subst h3
            subst h4
            simp [Tcl_AbstractListObjGetElements, hobj, hlp, hpos, hel]
          | none =>
            cases hip : r.indexProc with
            | none =>
              simp [Tcl_AbstractListObjGetElements, hobj, hlp, hpos, hel,
                hip] at h
            | some ip =>
              simp [Tcl_AbstractListObjGetElements, hobj, hlp, hpos, hel,
                hip, Mem.alloc] at h
              obtain ⟨h1, h2, h3, h4⟩ := h
              subst h1
              subst h2
              subst h3
              subst h4
              simp [Tcl_AbstractListObjGetElements, hpos]
        · simp [Tcl_AbstractListObjGetElements, hobj, hlp, hpos] at h
          obtain ⟨h1, h2, h3, h4⟩ := h
          subst h1
          subst h2
          subst h3
          subst h4
          simp [Tcl_AbstractListObjGetElements, hobj, hlp, hpos]

/-- Witness for C6: the cached-call branch applied with an index-proc
interpretation that would produce different elements (showing the cache is
returned as-is), and idempotence right after the materializing call of the
concrete scenario. -/
theorem getElements_idempotent_witness :
    Tcl_AbstractListObjGetElements cLen5 (fun _ _ _ => (99 : Int))
        (alObj (some 0)) memWithCache =
      (alObj (some 0), memWithCache, GEOut.ok 5 (some 0)) ∧
    Tcl_AbstractListObjGetElements cLen5 cIdx2 (alObj (some 0))
        memWithCache =
      (alObj (some 0), memWithCache, GEOut.ok 5 (some 0)) :=
  ⟨(getElements_idempotent Unit Int Unit cLen5 cIdx2 (alObj (some 0))
      memWithCache).1 _ () 0 rfl rfl (by decide) rfl _,
    (getElements_idempotent Unit Int Unit cLen5 cIdx2 (alObj none)
      memEmpty).2 (alObj (some 0)) memWithCache 5 (some 0) (by rfl)⟩

/-- Claim C9: `Tcl_AbstractListSetProc` returns `TCL_ERROR` leaving the value
(and so every operation-table slot) unchanged when the value has no
abstract-list internal representation or the slot identifier is not one of
the six recognized kinds; otherwise it installs the pointer into exactly the
requested slot, leaves the five other slots, the cache slot and all header
metadata unchanged, and returns `TCL_OK`. -/
theorem setProc_spec (α Elem P : Type) (obj : TclObj α Elem P)
    (ptype : Tcl_AbstractListProcType) (proc : P) :
    (AbstractListGetInternalRep obj = none →
      Tcl_AbstractListSetProc obj ptype proc = (obj, TCL_ERROR)) ∧
    (ptype.recognized = false →
      Tcl_AbstractListSetProc obj ptype proc = (obj, TCL_ERROR)) ∧
    (∀ r, AbstractListGetInternalRep obj = some r →
      ptype.recognized = true →
      ∃ r', Tcl_AbstractListSetProc obj ptype proc =
          ({ obj with rep := ObjRep.abstractList r' }, TCL_OK) ∧
        ALRep.readSlot r' ptype = some proc ∧
        (∀ t, t ≠ ptype → ALRep.readSlot r' t = ALRep.readSlot r t) ∧
        r'.elements = r.elements ∧ r'.version = r.version ∧
        r'.repSize = r.repSize ∧ r'.typeName = r.typeName ∧
        r'.abstractValue = r.abstractValue) := by
  refine ⟨?_, ?_, ?_⟩
  · intro h
    simp [Tcl_AbstractListSetProc, h]
  · intro hrec
    cases ptype with
    | unrecognized n =>
      cases hg : AbstractListGetInternalRep obj with
      | none => simp [Tcl_AbstractListSetProc, hg]
      | some r => simp [Tcl_AbstractListSetProc, hg]
    | TCL_ABSL_NEW => simp [Tcl_AbstractListProcType.recognized] at hrec
    | TCL_ABSL_DUPREP => simp [Tcl_AbstractListProcType.recognized] at hrec
    | TCL_ABSL_LENGTH => simp [Tcl_AbstractListProcType.recognized] at hrec
    | TCL_ABSL_INDEX => simp [Tcl_AbstractListProcType.recognized] at hrec
    | TCL_ABSL_SLICE => simp [Tcl_AbstractListProcType.recognized] at hrec
    | TCL_ABSL_REVERSE => simp [Tcl_AbstractListProcType.recognized] at hrec
  · intro r hr hrec
    cases ptype with
    | unrecognized n => simp [Tcl_AbstractListProcType.recognized] at hrec
    | TCL_ABSL_NEW =>
      refine ⟨{ r with newObjProc := some proc },
        by simp [Tcl_AbstractListSetProc, hr], rfl, ?_, rfl, rfl, rfl, rfl,
        rfl⟩
      intro t ht
      cases t <;> simp_all [ALRep.readSlot]
    | TCL_ABSL_DUPREP =>
      refine ⟨{ r with dupRepProc := some proc },
        by simp [Tcl_AbstractListSetProc, hr], rfl, ?_, rfl, rfl, rfl, rfl,
        rfl⟩
      intro t ht
      cases t <;> simp_all [ALRep.readSlot]
    | TCL_ABSL_LENGTH =>
      refine ⟨{ r with lengthProc := some proc },
        by simp [Tcl_AbstractListSetProc, hr], rfl, ?_, rfl, rfl, rfl, rfl,
        rfl⟩
      intro t ht
      cases t <;> simp_all [ALRep.readSlot]
    | TCL_ABSL_INDEX =>
      refine ⟨{ r with indexProc := some proc },
        by simp [Tcl_AbstractListSetProc, hr], rfl, ?_, rfl, rfl, rfl, rfl,
        rfl⟩
      intro t ht
      cases t <;> simp_all [ALRep.readSlot]
    | TCL_ABSL_SLICE =>
      refine ⟨{ r with sliceProc := some proc },
        by simp [Tcl_AbstractListSetProc, hr], rfl, ?_, rfl, rfl, rfl, rfl,
        rfl⟩
      intro t ht
      cases t <;> simp_all [ALRep.readSlot]
    | TCL_ABSL_REVERSE =>
      refine ⟨{ r with reverseProc := some proc },
        by simp [Tcl_AbstractListSetProc, hr], rfl, ?_, rfl, rfl, rfl, rfl,
        rfl⟩
      intro t ht
      cases t <;> simp_all [ALRep.readSlot]

/-- Witness for C9: installing a slice proc on the concrete abstract list
succeeds, while a non-abstract-list value and an unrecognized identifier
both yield `TCL_ERROR` with the value unchanged. -/
theorem setProc_spec_witness :
    (Tcl_AbstractListSetProc (alObj none)
        Tcl_AbstractListProcType.TCL_ABSL_SLICE ()).2 = TCL_OK ∧
      Tcl_AbstractListSetProc intObj
          Tcl_AbstractListProcType.TCL_ABSL_SLICE () = (intObj, TCL_ERROR) ∧
      Tcl_AbstractListSetProc (alObj none)
          (Tcl_AbstractListProcType.unrecognized 42) () =
        (alObj none, TCL_ERROR) := by
  refine ⟨?_, ?_, ?_⟩
  · obtain ⟨r', heq, -⟩ :=
      (setProc_spec Unit Int Unit (alObj none)
        Tcl_AbstractListProcType.TCL_ABSL_SLICE ()).2.2 _ rfl rfl
    rw [heq]
  · exact (setProc_spec Unit Int Unit intObj
      Tcl_AbstractListProcType.TCL_ABSL_SLICE ()).1 rfl
  · exact (setProc_spec Unit Int Unit (alObj none)
      (Tcl_AbstractListProcType.unrecognized 42) ()).2.1 rfl

theorem elemStrs_length {α Elem P : Type} (cI : P → α → Int → Elem)
    (estr : Elem → String) (ip : P) (v : α) (n : Nat) :
    (elemStrs cI estr ip v n).length = n := by
  simp [elemStrs]

theorem elemStrs_ne_nil {α Elem P : Type} (cI : P → α → Int → Elem)
    (estr : Elem → String) (ip : P) (v : α) (n : Nat) (h : n ≠ 0) :
    elemStrs cI estr ip v n ≠ [] := by
  intro hnil
  have := congrArg List.length hnil
  rw [elemStrs_length] at this
  exact h this

theorem elemStrs_eq_singleton {α Elem P : Type} (cI : P → α → Int → Elem)
    (estr : Elem → String) (ip : P) (v : α) (n : Nat) (s : String) :
    elemStrs cI estr ip v n = [s] ↔ n = 1 ∧ s = estr (cI ip v 0) := by
  cases n with
  | zero => simp [elemStrs]
  | succ m =>
    cases m with
    | zero =>
      constructor
      · intro h
        have h0 : elemStrs cI estr ip v 1 = [estr (cI ip v 0)] := rfl
        rw [h0] at h
        exact ⟨rfl, (List.cons.injEq _ _ _ _).mp h |>.1.symm⟩
      · rintro ⟨-, hs⟩
        subst hs
        rfl
    | succ k =>
      constructor
      · intro h
        have := congrArg List.length h
        rw [elemStrs_length] at this
        simp at this
      · rintro ⟨h1, -⟩
        exact absurd h1 (by omega)

/-- Claim C5: with logical length `N ≥ 1`, the rendering pass writes each
element's string bytes followed by exactly one space separator, the final
separator is overwritten with the terminator, and the recorded length is
`total - 1` from the measuring pass — so the stored bytes equal the
space-joined element strings (`sepJoinSpec`, written from the spec's words)
and re-measuring them yields `total - 1`. -/
theorem updateString_renders (α Elem P : Type) (cL : P → α → Int)
    (cI : P → α → Int → Elem) (estr : Elem → String)
    (obj : TclObj α Elem P) (r : ALRep α Elem P) (lp ip : P)
    (hrep : obj.rep = ObjRep.abstractList r)
    (hlp : r.lengthProc = some lp)
    (hip : r.indexProc = some ip)
    (hpos : 1 ≤ cL lp r.abstractValue) :
    UpdateStringOfAbstractList cL cI estr obj =
        some { obj with
          bytes := some (sepJoinSpec (elemStrs cI estr ip r.abstractValue
            (cL lp r.abstractValue).toNat))
          strLength := (measurePass (elemStrs cI estr ip r.abstractValue
            (cL lp r.abstractValue).toNat) : Int) - 1 } ∧
      (sepJoinSpec (elemStrs cI estr ip r.abstractValue
        (cL lp r.abstractValue).toNat)).length =
        measurePass (elemStrs cI estr ip r.abstractValue
          (cL lp r.abstractValue).toNat) - 1 := by
  have hne : elemStrs cI estr ip r.abstractValue
      (cL lp r.abstractValue).toNat ≠ [] :=
    elemStrs_ne_nil cI estr ip r.abstractValue _ (by omega)
  have hnle : ¬ (cL lp r.abstractValue ≤ 0) := by omega
  constructor
  · have hb := renderPass_take
      (elemStrs cI estr ip r.abstractValue (cL lp r.abstractValue).toNat) hne
    simp [UpdateStringOfAbstractList, hrep, hlp, hip, hnle, hb]
  · exact sepJoinSpec_length _ hne

/-- Witness for C5 at the spec's concrete scenario (`0 2 4 6 8`). -/
theorem updateString_renders_witness :
    UpdateStringOfAbstractList cLen5 cIdx2s (fun s => s) strListObj =
        some { strListObj with
          bytes := some (sepJoinSpec (elemStrs cIdx2s (fun s => s) () ()
            (cLen5 () ()).toNat))
          strLength := (measurePass (elemStrs cIdx2s (fun s => s) () ()
            (cLen5 () ()).toNat) : Int) - 1 } ∧
      (sepJoinSpec (elemStrs cIdx2s (fun s => s) () ()
        (cLen5 () ()).toNat)).length =
        measurePass (elemStrs cIdx2s (fun s => s) () ()
          (cLen5 () ()).toNat) - 1 :=
  updateString_renders Unit String Unit cLen5 cIdx2s (fun s => s) strListObj
    _ () () rfl rfl rfl (by decide)

/-- Claim C4 counterexample: an abstract list of logical length 1 whose sole
element renders as the empty string projects to the empty string — so the
projection being empty does not imply `N = 0`, refuting "empty iff
`N == 0`" (the recorded length is still `total - 1 = 0`, consistent with
the re-measuring part of the claim). -/
theorem updateString_empty_counterexample :
    UpdateStringOfAbstractList cLen1 cIdxEmpty (fun s => s) strListObj =
        some { strListObj with bytes := some [], strLength := 0 } ∧
      cLen1 () () = 1 := by
  constructor
  · rfl
  · rfl

/-- Claim C4 (amended): the string projection of an abstract-list value is
empty iff the logical length `N` is `≤ 0` or `N = 1` and the sole element's
string is empty; and for `N ≥ 1` the recorded length, and the length of the
stored bytes, both equal `total - 1` where `total` is the measuring pass's
byte count. -/
theorem updateString_empty_iff (α Elem P : Type) (cL : P → α → Int)
    (cI : P → α → Int → Elem) (estr : Elem → String)
    (obj : TclObj α Elem P) (r : ALRep α Elem P) (lp ip : P)
    (hrep : obj.rep = ObjRep.abstractList r)
    (hlp : r.lengthProc = some lp)
    (hip : r.indexProc = some ip) :
    ∃ obj', UpdateStringOfAbstractList cL cI estr obj = some obj' ∧
      (obj'.bytes = some [] ↔
        (cL lp r.abstractValue ≤ 0 ∨
          (cL lp r.abstractValue = 1 ∧
            (estr (cI ip r.abstractValue 0)).length = 0))) ∧
      (1 ≤ cL lp r.abstractValue →
        obj'.strLength = (measurePass (elemStrs cI estr ip r.abstractValue
          (cL lp r.abstractValue).toNat) : Int) - 1 ∧
        ∀ bs, obj'.bytes = some bs →
          bs.length = measurePass (elemStrs cI estr ip r.abstractValue
            (cL lp r.abstractValue).toNat) - 1) := by
  by_cases hle : cL lp r.abstractValue ≤ 0
  · have heq : UpdateStringOfAbstractList cL cI estr obj =
        some { obj with bytes := some [], strLength := 0 } := by
      simp [UpdateStringOfAbstractList, hrep, hlp, hip, hle]
    refine ⟨_, heq, ?_, ?_⟩
    · simp [hle]
    · intro h1
      omega
  · have hne : elemStrs cI estr ip r.abstractValue
        (cL lp r.abstractValue).toNat ≠ [] :=
      elemStrs_ne_nil cI estr ip r.abstractValue _ (by omega)
    have htot : 1 ≤ measurePass (elemStrs cI estr ip r.abstractValue
        (cL lp r.abstractValue).toNat) := measurePass_pos _ hne
    have hrl := renderPass_length (elemStrs cI estr ip r.abstractValue
        (cL lp r.abstractValue).toNat)
    have heq : UpdateStringOfAbstractList cL cI estr obj = some { obj with
        bytes := some ((renderPass (elemStrs cI estr ip r.abstractValue
          (cL lp r.abstractValue).toNat)).take
            (measurePass (elemStrs cI estr ip r.abstractValue
              (cL lp r.abstractValue).toNat) - 1))
        strLength := (measurePass (elemStrs cI estr ip r.abstractValue
          (cL lp r.abstractValue).toNat) : Int) - 1 } := by
      simp [UpdateStringOfAbstractList, hrep, hlp, hip, hle]
    refine ⟨_, heq, ?_, ?_⟩
    · constructor
      · intro hb
        have hb' : (renderPass (elemStrs cI estr ip r.abstractValue
            (cL lp r.abstractValue).toNat)).take
              (measurePass (elemStrs cI estr ip r.abstractValue
                (cL lp r.abstractValue).toNat) - 1) = [] :=
          Option.some.inj hb
        have hlen0 := congrArg List.length hb'
        rw [List.length_nil, List.length_take, hrl,
          Nat.min_eq_left (by omega)] at hlen0
        have h1 : measurePass (elemStrs cI estr ip r.abstractValue
            (cL lp r.abstractValue).toNat) = 1 := by omega
        obtain ⟨s, hs, hs0⟩ := (measurePass_eq_one _).mp h1
        obtain ⟨hn1, hse⟩ :=
          (elemStrs_eq_singleton cI estr ip r.abstractValue _ s).mp hs
        right
        refine ⟨by omega, ?_⟩
        rw [← hse]
        exact hs0
      · rintro (h | ⟨h1, h2⟩)
        · exact absurd h hle
        · have hn1 : (cL lp r.abstractValue).toNat = 1 := by omega
          have hs : elemStrs cI estr ip r.abstractValue
              (cL lp r.abstractValue).toNat =
              [estr (cI ip r.abstractValue 0)] :=
            (elemStrs_eq_singleton cI estr ip r.abstractValue _ _).mpr
              ⟨hn1, rfl⟩
          have htot1 : measurePass (elemStrs cI estr ip r.abstractValue
              (cL lp r.abstractValue).toNat) = 1 := by
            rw [hs]
            simp [measurePass, h2]
          simp [htot1]
    · intro hge
      refine ⟨rfl, ?_⟩
      intro bs hbs
      have hbs' := Option.some.inj hbs
      rw [← hbs']
      rw [List.length_take, hrl]
      exact Nat.min_eq_left (by omega)

/-- Witness for C4's amended statement at the concrete scenario
(`length=5`, elements `0 2 4 6 8`). -/
theorem updateString_empty_iff_witness :
    ∃ obj', UpdateStringOfAbstractList cLen5 cIdx2s (fun s => s)
          strListObj = some obj' ∧
      (obj'.bytes = some [] ↔
        (cLen5 () () ≤ 0 ∨
          (cLen5 () () = 1 ∧ ((fun s => s) (cIdx2s () () 0)).length = 0))) ∧
      (1 ≤ cLen5 () () →
        obj'.strLength = (measurePass (elemStrs cIdx2s (fun s => s) () ()
          (cLen5 () ()).toNat) : Int) - 1 ∧
        ∀ bs, obj'.bytes = some bs →
          bs.length = measurePass (elemStrs cIdx2s (fun s => s) () ()
            (cLen5 () ()).toNat) - 1) :=
  updateString_empty_iff Unit String Unit cLen5 cIdx2s (fun s => s)
    strListObj _ () () rfl rfl rfl
